import Mathlib

/-!
Verification development for the tablet-clone subsystem
(`be/src/olap/task/engine_clone_task.cpp`).

The C++ code is shallowly embedded: pure computations become Lean
functions; calls into external collaborators (filesystem, HTTP client,
RPC transport, tablet manager) are modelled by environment records whose
fields supply each call's outcome, and the `Defer` scope guards are
applied explicitly on every exit path.  Machine integers are modelled by
`Nat`/`Int` (none of the involved computations can overflow in the
scenarios considered, and versions/sizes are non-negative in the code).
-/

namespace DorisClone

/-- Error codes of `doris::Status` used by the clone task. -/
inductive ErrCode where
  | INTERNAL_ERROR
  | IO_ERROR
  | NOT_FOUND
  | EXCEEDED_LIMIT
  | TRY_LOCK_FAILED
deriving DecidableEq, Repr

/-- `doris::Status`: either OK or an error code with a message. -/
inductive Status where
  | OK : Status
  | Err : ErrCode → String → Status
deriving DecidableEq, Repr

/-- `Status::ok()`. -/
def Status.isOk : Status → Bool
  | .OK => true
  | .Err _ _ => false

/-- `std::string::ends_with` (suffix test on the character sequence). -/
def ends_with (s suffix : String) : Bool :=
  suffix.data.isSuffixOf s.data

/-- `std::string` drop of the last `n` characters followed by append, modelling
`str.replace(str.size() - n, n, repl)`. -/
def replace_suffix (s : String) (n : Nat) (repl : String) : String :=
  ⟨s.data.take (s.data.length - n) ++ repl.data⟩

end DorisClone

namespace DorisClone

/-- The in-place reordering loop shared by `_download_files` and
`_batch_download_files`:

    for (int i = 0; i + 1 < list.size(); ++i)
        if (matches(list[i])) { std::swap(list[i], list[list.size()-1]); break; }

scanning every position except the last; the first match is swapped with the
final element and the scan stops. -/
def move_matching_last {α : Type} (p : α → Bool) : List α → List α
  | [] => []
  | [x] => [x]
  | x :: y :: ys =>
    if p x then
      (y :: ys).getLast (List.cons_ne_nil y ys) :: ((y :: ys).dropLast ++ [x])
    else
      x :: move_matching_last p (y :: ys)

/-- `_download_files` reordering: move the `.hdr` entry of the listed file
names to the end (lines 560–565). -/
def move_hdr_last (files : List String) : List String :=
  move_matching_last (fun f => ends_with f ".hdr") files

/-- `_batch_download_files` reordering on `(name, size)` pairs
(lines 668–673). -/
def move_hdr_last_v2 (files : List (String × Nat)) : List (String × Nat) :=
  move_matching_last (fun f => ends_with f.1 ".hdr") files

end DorisClone

namespace DorisClone

/-- Per-file adaptive download timeout (seconds), `_download_files`
lines 593–596:

    uint64_t estimate_timeout = file_size / config::download_low_speed_limit_kbps / 1024;
    if (estimate_timeout < config::download_low_speed_time)
        estimate_timeout = config::download_low_speed_time;
-/
def estimate_timeout (file_size kbps low_speed_time : Nat) : Nat :=
  let e := file_size / kbps / 1024
  if e < low_speed_time then low_speed_time else e

/-- Milliseconds value handed to `HttpClient::set_timeout_ms` for the GET
(line 607: `estimate_timeout * 1000`). -/
def download_timeout_ms (file_size kbps low_speed_time : Nat) : Nat :=
  estimate_timeout file_size kbps low_speed_time * 1000

/-- Guarded (total) natural division: `none` is the error branch taken when
the divisor is zero. -/
def checked_div (a b : Nat) : Option Nat :=
  if b = 0 then none else some (a / b)

/-- Total rendering of the timeout computation in which the division by
`config::download_low_speed_limit_kbps` is guarded. -/
def estimate_timeout_checked (file_size kbps low_speed_time : Nat) : Option Nat :=
  match checked_div file_size kbps with
  | none => none
  | some q =>
    let e := q / 1024
    some (if e < low_speed_time then low_speed_time else e)

end DorisClone

namespace DorisClone

/-- `constexpr size_t BATCH_FILE_SIZE = 64 << 20; // 64MB` -/
def BATCH_FILE_SIZE : Nat := 64 <<< 20

/-- `constexpr size_t BATCH_FILE_NUM = 64;` -/
def BATCH_FILE_NUM : Nat := 64

/-- Inner packing loop of `_batch_download_files` (lines 682–692), acting on
the suffix of the file list starting at the current index, with the batch
count and the accumulated batch size so far.  The scan stops (leaving the
remaining files for the next batch) when the batch already holds
`BATCH_FILE_NUM` files, already accumulates at least `BATCH_FILE_SIZE`
bytes, or the next file is the final file of the whole list while the batch
is non-empty.  Returns the batch and the remaining suffix. -/
def batch_take : List (String × Nat) → Nat → Nat →
    List (String × Nat) × List (String × Nat)
  | [], _, _ => ([], [])
  | f :: rest, cnt, sz =>
    if BATCH_FILE_NUM ≤ cnt ∨ BATCH_FILE_SIZE ≤ sz ∨ (rest = [] ∧ cnt ≠ 0) then
      ([], f :: rest)
    else
      let br := batch_take rest (cnt + 1) (sz + f.2)
      (f :: br.1, br.2)

/-- Outer packing loop of `_batch_download_files`, recursion worker.  The
C++ loop variable `i` advances by the size of the batch just formed, which
is at least one file per iteration, so the number of remaining files is a
strict variant of the loop; it is carried here as the structural `fuel`
argument, initialized to the list length (`make_batches_fuel_irrel` below
shows every sufficient fuel computes the same batches, so the zero-fuel
branch is never taken from `make_batches`). -/
def make_batches_go : Nat → List (String × Nat) → List (List (String × Nat))
  | _, [] => []
  | 0, _ :: _ => []
  | fuel + 1, f :: rest =>
    (batch_take (f :: rest) 0 0).1 :: make_batches_go fuel (batch_take (f :: rest) 0 0).2

/-- Outer packing loop of `_batch_download_files` (lines 681–706), restricted
to the pure batch formation: split the (already `.hdr`-last-reordered) file
list into the consecutive batches the code downloads. -/
def make_batches (l : List (String × Nat)) : List (List (String × Nat)) :=
  make_batches_go l.length l

end DorisClone

namespace DorisClone

/-- Environment for `_download_files`: the outcomes of its filesystem and
HTTP-client calls.  `list_files` is the (retried) remote directory listing,
already split at newlines (`none` models failure after all retries);
`head_content_length` is the Content-Length obtained by the HEAD request;
`reach_capacity_limit` is `DataDir::reach_capacity_limit`; `download_file`
is the outcome of the GET callback (download, size verification, permission
change), invoked with the file name and the timeout in seconds passed to
`set_timeout_ms`.  `kbps` and `low_speed_time` are the config values
`download_low_speed_limit_kbps` and `download_low_speed_time`. -/
structure DownloadEnv where
  delete_dir_ok : Bool
  create_dir_ok : Bool
  list_files : Option (List String)
  head_content_length : String → Option Nat
  reach_capacity_limit : Nat → Bool
  download_file : String → Nat → Status
  kbps : Nat
  low_speed_time : Nat

/-- Per-file loop of `_download_files` (lines 571–629): HEAD for the size,
check disk capacity (`EXCEEDED_LIMIT` on reaching the limit), then GET with
the adaptive timeout. -/
def download_files_loop (env : DownloadEnv) : List String → Status
  | [] => .OK
  | f :: rest =>
    match env.head_content_length f with
    | none => .Err .IO_ERROR "failed to get content length"
    | some file_size =>
      if env.reach_capacity_limit file_size then
        .Err .EXCEEDED_LIMIT "reach the capacity limit of path"
      else
        match env.download_file f (estimate_timeout file_size env.kbps env.low_speed_time) with
        | .OK => download_files_loop env rest
        | .Err c m => .Err c m

/-- `EngineCloneTask::_download_files` (lines 535–644): reset the local
staging directory, list the remote files, move the `.hdr` entry last, then
download file by file. -/
def download_files (env : DownloadEnv) : Status :=
  if ¬ env.delete_dir_ok then .Err .IO_ERROR "delete_directory failed"
  else if ¬ env.create_dir_ok then .Err .IO_ERROR "create_directory failed"
  else
    match env.list_files with
    | none => .Err .IO_ERROR "list remote files failed"
    | some file_name_list => download_files_loop env (move_hdr_last file_name_list)

/-- Environment for `_batch_download_files`, in the same style as
`DownloadEnv`; `list_files_v2` is the v2 listing of `(name, size)` pairs and
`download_batch` the outcome of one grouped download request. -/
structure BatchDownloadEnv where
  delete_dir_ok : Bool
  create_dir_ok : Bool
  list_files_v2 : Option (List (String × Nat))
  reach_capacity_limit : Nat → Bool
  download_batch : List (String × Nat) → Status

/-- Per-batch loop of `_batch_download_files` (lines 681–706): capacity
check against the accumulated batch size, then one grouped request. -/
def batch_download_loop (env : BatchDownloadEnv) : List (List (String × Nat)) → Status
  | [] => .OK
  | b :: bs =>
    let batch_file_size := (b.map Prod.snd).sum
    if env.reach_capacity_limit batch_file_size then
      .Err .EXCEEDED_LIMIT "reach the capacity limit of path"
    else
      match env.download_batch b with
      | .OK => batch_download_loop env bs
      | .Err c m => .Err c m

/-- `EngineCloneTask::_batch_download_files` (lines 646–722). -/
def batch_download_files (env : BatchDownloadEnv) : Status :=
  if ¬ env.delete_dir_ok then .Err .IO_ERROR "delete_directory failed"
  else if ¬ env.create_dir_ok then .Err .IO_ERROR "create_directory failed"
  else
    match env.list_files_v2 with
    | none => .Err .IO_ERROR "list remote files failed"
    | some file_info_list =>
      batch_download_loop env (make_batches (move_hdr_last_v2 file_info_list))

end DorisClone

namespace DorisClone

/-- One candidate source backend of the peer loop in
`_make_and_download_snapshots`: the outcome of `_make_snapshot` on it, the
`allow_incremental_clone` flag of its snapshot response, whether it
advertises batch download (`is_support_batch_download`), the download
environments, and the outcome of
`SnapshotManager::convert_rowset_ids` after its download succeeded. -/
structure PeerEnv where
  make_snapshot_st : Status
  allow_incremental_clone : Bool
  support_batch_download : Bool
  dl_env : DownloadEnv
  batch_env : BatchDownloadEnv
  convert_rowset_ids_st : Status

/-- Result of `_make_and_download_snapshots`, together with counters of the
externally visible actions taken: `make_snapshot` RPC attempts and download
attempts (each download attempt is what deletes/creates the staging
directory). -/
structure MadResult where
  status : Status
  rpc_attempts : Nat
  download_attempts : Nat
  converted : Bool
  allow_incremental : Bool
deriving DecidableEq, Repr

/-- Peer loop of `_make_and_download_snapshots` (lines 377–472): on
`_make_snapshot` failure or download failure the attempt is abandoned and
the next peer tried (`continue`), carrying the failure in the local
`status`; on `convert_rowset_ids` failure the error is returned at once
(`DORIS_TRY`); after a fully successful attempt the loop breaks.  The final
`status` (initialized `Status::OK`) is returned. -/
def make_and_download_snapshots_loop (enable_batch : Bool) (st : Status)
    (rpc dl : Nat) (allow_inc : Bool) : List PeerEnv → MadResult
  | [] => ⟨st, rpc, dl, false, allow_inc⟩
  | p :: rest =>
    if ¬ p.make_snapshot_st.isOk then
      make_and_download_snapshots_loop enable_batch p.make_snapshot_st (rpc + 1) dl
        allow_inc rest
    else
      let allow_inc' := p.allow_incremental_clone
      let dl_st :=
        if enable_batch ∧ p.support_batch_download then batch_download_files p.batch_env
        else download_files p.dl_env
      if ¬ dl_st.isOk then
        make_and_download_snapshots_loop enable_batch dl_st (rpc + 1) (dl + 1)
          allow_inc' rest
      else if ¬ p.convert_rowset_ids_st.isOk then
        ⟨p.convert_rowset_ids_st, rpc + 1, dl + 1, false, allow_inc'⟩
      else
        ⟨dl_st, rpc + 1, dl + 1, true, allow_inc'⟩

/-- `EngineCloneTask::_make_and_download_snapshots` (lines 363–474), with
`enable_batch` standing for `config::enable_batch_download`. -/
def make_and_download_snapshots (enable_batch : Bool) (peers : List PeerEnv) : MadResult :=
  make_and_download_snapshots_loop enable_batch .OK 0 0 false peers

end DorisClone

namespace DorisClone

/-- A version range `[first, second]` (`doris::Version`). -/
abbrev Version := Int × Int

/-- Modelled from the spec: `Tablet::get_missed_versions` is not part of the
repository excerpt (only its call sites in `_do_clone` and
`_finish_incremental_clone` are).  Per the spec (§3 "Version", §4.1, and the
glossary entry "Missing versions"), a missing version relative to
`spec_version` is any version in `[0, spec_version]` not covered by a local_rs
rowset range, and the result is empty exactly when the local_rs ranges cover
`[0, spec_version]` without a gap.  Missing versions are singleton deltas
(cf. the comment in `_make_snapshot`), so they are listed here as the
uncovered version numbers in increasing order. -/
def get_missed_versions (local_rs : List Version) (spec_version : Int) : List Int :=
  (List.range (spec_version.toNat + 1)).filterMap fun n =>
    let v : Int := (n : Int)
    if local_rs.any (fun r => decide (r.1 ≤ v) && decide (v ≤ r.2)) then none else some v

/-- The part of the downloaded tablet header (`cloned_tablet_meta`) consulted
by `_finish_incremental_clone` / `_finish_full_clone`: its rowset version
ranges, and the result of `TabletMeta::max_version()` (a method outside the
excerpt, so carried as a field). -/
structure ClonedMeta where
  rs_metas : List Version
  max_version : Version
deriving DecidableEq, Repr

/-- `TabletMeta::acquire_rs_meta_by_version`: look up a rowset meta covering
exactly the given version range (method outside the excerpt; lookup by
version equality per its name and the error message at line 905). -/
def acquire_rs_meta_by_version (metas : List Version) (v : Version) : Option Version :=
  metas.find? (fun r => decide (r = v))

/-- Partition loop of `_finish_full_clone` (lines 942–960) over the local_rs
rowset ranges, against `M = cloned_max_version.second`: a local_rs range
`[a,b]` with `a ≤ M < b` aborts with `INTERNAL_ERROR "version cross src
latest"`; one with `b ≤ M` goes to `to_delete`; the rest are kept.  Returns
`(to_delete, kept)`. -/
def full_clone_partition (cloned_max_end : Int) :
    List Version → Except Status (List Version × List Version)
  | [] => .ok ([], [])
  | v :: rest =>
    if v.1 ≤ cloned_max_end ∧ v.2 > cloned_max_end then
      .error (.Err .INTERNAL_ERROR "version cross src latest")
    else if v.2 ≤ cloned_max_end then
      match full_clone_partition cloned_max_end rest with
      | .error e => .error e
      | .ok (del, keep) => .ok (v :: del, keep)
    else
      match full_clone_partition cloned_max_end rest with
      | .error e => .error e
      | .ok (del, keep) => .ok (del, v :: keep)

/-- `EngineCloneTask::_finish_full_clone` (lines 922–989) restricted to the
rowset-version bookkeeping: partition the local_rs rowsets against the cloned
max version, materialize all cloned rowsets (`create_rowset`, an external
tablet method whose success is `create_rowset_ok`), and call
`revise_tablet_meta(to_add, to_delete, additive=false)` (external; success
`revise_ok`), which keeps exactly the non-deleted local_rs rowsets and adds
every cloned rowset.  On any failure the local_rs meta is unchanged.  The
cooldown-meta-id policy and the merge-on-write delete-bitmap union mutate
state outside this model and are independent of the returned status. -/
def finish_full_clone (local_rs : List Version) (cloned : ClonedMeta)
    (create_rowset_ok revise_ok : Bool) : Status × List Version :=
  match full_clone_partition cloned.max_version.2 local_rs with
  | .error e => (e, local_rs)
  | .ok (_to_delete, keep) =>
    if ¬ create_rowset_ok then (.Err .IO_ERROR "create_rowset failed", local_rs)
    else if ¬ revise_ok then (.Err .IO_ERROR "revise_tablet_meta failed", local_rs)
    else (.OK, keep ++ cloned.rs_metas)

/-- Missing-version check loop of `_finish_incremental_clone`
(lines 901–911): every missing version must appear in the cloned meta. -/
def incremental_collect (cloned_metas : List Version) :
    List Int → Except Status (List Version)
  | [] => .ok []
  | v :: rest =>
    match acquire_rs_meta_by_version cloned_metas (v, v) with
    | none => .error (.Err .INTERNAL_ERROR "missed version is not found in cloned tablet meta")
    | some rs =>
      match incremental_collect cloned_metas rest with
      | .error e => .error e
      | .ok tail => .ok (rs :: tail)

/-- `EngineCloneTask::_finish_incremental_clone` (lines 886–917): re-compute
the missing versions under the lock, require each to exist in the cloned
meta, then `revise_tablet_meta(rowsets_to_clone, {}, additive=true)` —
nothing is deleted, the missing rowsets are added. -/
def finish_incremental_clone (local_rs : List Version) (cloned : ClonedMeta)
    (version : Int) (create_rowset_ok revise_ok : Bool) : Status × List Version :=
  let missed := get_missed_versions local_rs version
  match incremental_collect cloned.rs_metas missed with
  | .error e => (e, local_rs)
  | .ok rowsets_to_clone =>
    if ¬ create_rowset_ok then (.Err .IO_ERROR "create_rowset failed", local_rs)
    else if ¬ revise_ok then (.Err .IO_ERROR "revise_tablet_meta failed", local_rs)
    else (.OK, local_rs ++ rowsets_to_clone)

end DorisClone

namespace DorisClone

/-- Local filesystem calls consulted by `check_dest_binlog_valid`:
existence of the destination file and the md5 checksums (`none` models an
md5 computation error). -/
structure FsEnv where
  file_exists : String → Bool
  md5sum : String → Option String

/-- `check_dest_binlog_valid` (lines 83–135): compute the `_binlog`
destination path (renaming `.binlog` → `.dat`, `.binlog-index` → `.idx`);
if the destination exists, equal md5sums mean skip the link, different
md5sums are an internal error. -/
def check_dest_binlog_valid (fs : FsEnv) (tablet_dir clone_dir clone_file : String) :
    Except Status (String × Bool) :=
  let new_clone_file :=
    if ends_with clone_file ".binlog" then replace_suffix clone_file 7 ".dat"
    else if ends_with clone_file ".binlog-index" then replace_suffix clone_file 13 ".idx"
    else clone_file
  let from_path := clone_dir ++ "/" ++ clone_file
  let to_path := tablet_dir ++ "/_binlog/" ++ new_clone_file
  if ¬ fs.file_exists to_path then
    .ok (to_path, false)
  else
    match fs.md5sum from_path with
    | none => .error (.Err .IO_ERROR "md5sum failed")
    | some clone_file_md5sum =>
      match fs.md5sum to_path with
      | none => .error (.Err .IO_ERROR "md5sum failed")
      | some to_file_md5sum =>
        if clone_file_md5sum = to_file_md5sum then .ok (to_path, true)
        else .error (.Err .INTERNAL_ERROR "binlog file already exist, but md5sum not equal")

/-- Outcome of the link loop in `_finish_clone`: the loop either runs to its
end or is left by `break` (both `proceed`), or an iteration returns an error
(`fail`); in each case with the list of destination paths linked so far
(`linked_success_files`). -/
inductive LinkLoopOutcome where
  | proceed (linked : List String)
  | fail (linked : List String) (st : Status)
deriving DecidableEq, Repr

/-- Link loop of `_finish_clone` (lines 814–851): traverse the staged clone
files; skip names already present in the tablet dir; a `*.binlog*` name
without a binlog manifest leaves the loop (`break`); otherwise binlog names
are validated (possibly skipping the link on equal md5), everything else is
hard-linked to `<tablet_dir>/<name>`; a failed validation or link aborts
with its error.  `link_ok` gives the outcome of
`LocalFileSystem::link_file` per staged name. -/
def link_clone_files (fs : FsEnv) (tablet_dir clone_dir : String) (contain_binlog : Bool)
    (local_file_names : List String) (link_ok : String → Bool) :
    List String → List String → LinkLoopOutcome
  | [], linked => .proceed linked
  | clone_file :: rest, linked =>
    if clone_file ∈ local_file_names then
      link_clone_files fs tablet_dir clone_dir contain_binlog local_file_names link_ok
        rest linked
    else if ends_with clone_file ".binlog" || ends_with clone_file ".binlog-index" then
      if ¬ contain_binlog then
        .proceed linked
      else
        match check_dest_binlog_valid fs tablet_dir clone_dir clone_file with
        | .error e => .fail linked e
        | .ok (to_path, skip_link_file) =>
          if skip_link_file then
            link_clone_files fs tablet_dir clone_dir contain_binlog local_file_names link_ok
              rest linked
          else if link_ok clone_file then
            link_clone_files fs tablet_dir clone_dir contain_binlog local_file_names link_ok
              rest (linked ++ [to_path])
          else .fail linked (.Err .IO_ERROR "link_file failed")
    else
      let to_path := tablet_dir ++ "/" ++ clone_file
      if link_ok clone_file then
        link_clone_files fs tablet_dir clone_dir contain_binlog local_file_names link_ok
          rest (linked ++ [to_path])
      else .fail linked (.Err .IO_ERROR "link_file failed")

/-- Environment for `_finish_clone`: outcomes of its external calls, in
program order.  `load_header` is `TabletMeta::create_from_file` on the
staged `.hdr`; `binlog_meta_filesize` is the `std::filesystem::file_size`
of `rowset_binlog_metas.pb` (`none` models the error branch); the two
listing fields are the directory scans of the clone dir and the tablet dir
(`none` models a listing error); `create_rowset_ok` / `revise_ok` are the
outcomes of the tablet methods used by the metadata merge. -/
structure FinishEnv where
  fs : FsEnv
  tablet_dir : String
  clone_dir : String
  clone_dir_exists : Bool
  load_header : Option ClonedMeta
  delete_hdr_ok : Bool
  binlog_meta_filesize : Option Nat
  read_pb_ok : Bool
  delete_metas_ok : Bool
  create_binlog_dir_ok : Bool
  list_clone_dir : Option (List String)
  list_tablet_dir : Option (List String)
  link_ok : String → Bool
  ingest_binlog_metas_ok : Bool
  create_rowset_ok : Bool
  revise_ok : Bool

/-- State of `_finish_clone` at an exit point, before its `Defer` guards
run: the status being returned, the recorded `linked_success_files`, the
local tablet meta (revised only by a successful merge), and whether the
cumulative layer point was reset. -/
structure FinishBody where
  status : Status
  linked_success_files : List String
  new_local_meta : List Version
  cum_point_reset : Bool
deriving DecidableEq, Repr

/-- Body of `EngineCloneTask::_finish_clone` (lines 728–881) between the
registration of its `Defer` guards and the returns: existence check of the
clone dir, header load and removal, binlog-manifest probing
(`contain_binlog` is true iff `rowset_binlog_metas.pb` is staged with a
positive size), directory listings, the link loop, binlog-meta ingestion,
and the metadata merge under the lock set, finishing with the
cumulative-layer-point reset after a successful full clone. -/
def finish_clone_body (env : FinishEnv) (local_rs : List Version)
    (is_incremental_clone : Bool) (version : Int) : FinishBody :=
  if ¬ env.clone_dir_exists then
    ⟨.Err .INTERNAL_ERROR "clone dir not existed", [], local_rs, false⟩
  else
    match env.load_header with
    | none => ⟨.Err .IO_ERROR "failed to load cloned tablet meta", [], local_rs, false⟩
    | some cloned_tablet_meta =>
      if ¬ env.delete_hdr_ok then
        ⟨.Err .IO_ERROR "failed to delete cloned meta file", [], local_rs, false⟩
      else
        let binlog_metas_file := env.clone_dir ++ "/rowset_binlog_metas.pb"
        let binlog_metas_file_exists := env.fs.file_exists binlog_metas_file
        match if binlog_metas_file_exists then
                match env.binlog_meta_filesize with
                | none => none
                | some n => some (0 < n)
              else some false with
        | none => ⟨.Err .IO_ERROR "cant retrive file_size of binlog metas", [], local_rs, false⟩
        | some contain_binlog =>
          if binlog_metas_file_exists ∧ contain_binlog ∧ ¬ env.read_pb_ok then
            ⟨.Err .IO_ERROR "read_pb failed", [], local_rs, false⟩
          else if binlog_metas_file_exists ∧ ¬ env.delete_metas_ok then
            ⟨.Err .IO_ERROR "failed to delete binlog metas file", [], local_rs, false⟩
          else if contain_binlog ∧ ¬ env.create_binlog_dir_ok then
            ⟨.Err .IO_ERROR "failed to create binlog dir", [], local_rs, false⟩
          else
            match env.list_clone_dir with
            | none => ⟨.Err .IO_ERROR "failed to list clone dir", [], local_rs, false⟩
            | some clone_file_names =>
              match env.list_tablet_dir with
              | none => ⟨.Err .IO_ERROR "failed to list tablet dir", [], local_rs, false⟩
              | some local_file_names =>
                match link_clone_files env.fs env.tablet_dir env.clone_dir contain_binlog
                    local_file_names env.link_ok clone_file_names [] with
                | .fail linked st => ⟨st, linked, local_rs, false⟩
                | .proceed linked =>
                  if contain_binlog ∧ ¬ env.ingest_binlog_metas_ok then
                    ⟨.Err .IO_ERROR "ingest_binlog_metas failed", linked, local_rs, false⟩
                  else
                    let merged :=
                      if is_incremental_clone then
                        finish_incremental_clone local_rs cloned_tablet_meta version
                          env.create_rowset_ok env.revise_ok
                      else
                        finish_full_clone local_rs cloned_tablet_meta
                          env.create_rowset_ok env.revise_ok
                    ⟨merged.1, linked, merged.2,
                      ¬ is_incremental_clone ∧ merged.1.isOk⟩

/-- Final outcome of `_finish_clone` after its `Defer` guards have run:
`linked_files_remaining` is what survives of this attempt's links
(`remove_linked_files` batch-deletes them when the status is not OK), and
`clone_dir_removed` reflects the unconditional `remove_clone_dir` guard. -/
structure FinishResult where
  status : Status
  linked_files_remaining : List String
  new_local_meta : List Version
  clone_dir_removed : Bool
  cum_point_reset : Bool
deriving DecidableEq, Repr

/-- `EngineCloneTask::_finish_clone` (lines 728–881): the body followed by
the `remove_linked_files` guard (lines 802–810, delete the recorded links
when the status is not OK) and the `remove_clone_dir` guard (lines 730–736,
remove the staging directory on every exit path). -/
def finish_clone (env : FinishEnv) (local_rs : List Version)
    (is_incremental_clone : Bool) (version : Int) : FinishResult :=
  let b := finish_clone_body env local_rs is_incremental_clone version
  { status := b.status
    linked_files_remaining := if b.status.isOk then b.linked_success_files else []
    new_local_meta := b.new_local_meta
    clone_dir_removed := true
    cum_point_reset := b.cum_point_reset }

end DorisClone

namespace DorisClone

/-- Modelled from the spec: `TabletManager::report_tablet_info` is outside
the repository excerpt (only its caller `_set_tablet_info` is).  Per §6
"Reported outcome" and the concrete scenario 1 of §8 (local ranges
`[0-1],[2-5],[6-8]` report `version = 8`), it fills `tablet_info.version`
with the tablet's visible version, the maximum end of its rowset ranges. -/
def report_version (local_rs : List Version) : Int :=
  local_rs.foldl (fun a r => max a r.2) 0

/-- Outcome of `_set_tablet_info`: the returned status, the `TTabletInfo`
versions appended to the task's result list, and whether a stale new tablet
was dropped. -/
structure TabletInfoOutcome where
  status : Status
  tablet_infos : List Int
  dropped_tablet : Bool
deriving DecidableEq, Repr

/-- `EngineCloneTask::_set_tablet_info` (lines 325–356): report the tablet
info (`report_ok` is the outcome of the external `report_tablet_info`
call); if the reported version is below the requested version, drop the
tablet when it was newly cloned and fail with `InternalError "unexpected
version"`; otherwise append the info and succeed. -/
def set_tablet_info (local_rs : List Version) (req_version : Int)
    (is_new_tablet : Bool) (report_ok : Bool) : TabletInfoOutcome :=
  if ¬ report_ok then ⟨.Err .IO_ERROR "report_tablet_info failed", [], false⟩
  else
    let v := report_version local_rs
    if v < req_version then
      ⟨.Err .INTERNAL_ERROR "unexpected version", [], is_new_tablet⟩
    else ⟨.OK, [v], false⟩

/-- Environment of the existing-tablet path of `_do_clone`: the local
tablet's rowset ranges and the outcomes of the external calls the path
makes, in program order. -/
structure ExistingCloneEnv where
  local_rowsets : List Version
  req_version : Int
  migration_lock_ok : Bool
  enable_unique_key_merge_on_write : Bool
  min_pending_publish_version : Int
  enable_batch_download : Bool
  peers : List PeerEnv
  finish_env : FinishEnv
  report_ok : Bool

/-- `specified_version` computation of `_do_clone` (lines 225–233): the
requested version, clamped to `min_pending_publish_version - 1` for
merge-on-write tablets. -/
def specified_version (env : ExistingCloneEnv) : Int :=
  if env.enable_unique_key_merge_on_write ∧
      env.min_pending_publish_version - 1 < env.req_version then
    env.min_pending_publish_version - 1
  else env.req_version

/-- Outcome of the existing-tablet clone path, with counters of the
externally visible actions: `make_snapshot` RPC attempts and download
(file-transfer) attempts. -/
structure CloneOutcome where
  status : Status
  rpc_attempts : Nat
  download_attempts : Nat
  tablet_infos : List Int
deriving DecidableEq, Repr

/-- Existing-tablet path of `EngineCloneTask::_do_clone` (lines 208–259 and
the final `_set_tablet_info` at line 322): take the migration read lock,
compute `specified_version` and the missed versions; when no version is
missed, report the tablet info and return without any snapshot RPC or file
transfer; otherwise run `_make_and_download_snapshots`, `_finish_clone`,
and then `_set_tablet_info` on the revised meta. -/
def do_clone_existing (env : ExistingCloneEnv) : CloneOutcome :=
  if ¬ env.migration_lock_ok then
    ⟨.Err .TRY_LOCK_FAILED "EngineCloneTask::_do_clone meet try lock failed", 0, 0, []⟩
  else
    let missed_versions := get_missed_versions env.local_rowsets (specified_version env)
    if missed_versions = [] then
      let r := set_tablet_info env.local_rowsets env.req_version false env.report_ok
      ⟨r.status, 0, 0, r.tablet_infos⟩
    else
      let mad := make_and_download_snapshots env.enable_batch_download env.peers
      if ¬ mad.status.isOk then
        ⟨mad.status, mad.rpc_attempts, mad.download_attempts, []⟩
      else
        let fr := finish_clone env.finish_env env.local_rowsets mad.allow_incremental
          (specified_version env)
        if ¬ fr.status.isOk then
          ⟨fr.status, mad.rpc_attempts, mad.download_attempts, []⟩
        else
          let r := set_tablet_info fr.new_local_meta env.req_version false env.report_ok
          ⟨r.status, mad.rpc_attempts, mad.download_attempts, r.tablet_infos⟩

end DorisClone

namespace DorisClone

/-- Seven 10 MiB data files (boundary case of §8, "Batch packing"). -/
def seven_ten_mib : List (String × Nat) :=
  [("f1.dat", 10485760), ("f2.dat", 10485760), ("f3.dat", 10485760), ("f4.dat", 10485760),
   ("f5.dat", 10485760), ("f6.dat", 10485760), ("f7.dat", 10485760)]

/-- Seven 10 MiB data files followed by a 1 MiB `.hdr` file, the second
boundary case of §8. -/
def seven_ten_mib_hdr : List (String × Nat) :=
  seven_ten_mib ++ [("t.hdr", 1048576)]

/-- Download environment of a peer whose destination disk is at its
capacity limit: listing and HEAD succeed for one 1 MiB file, then
`reach_capacity_limit` trips. -/
def capacity_limited_dl_env : DownloadEnv :=
  { delete_dir_ok := true
    create_dir_ok := true
    list_files := some ["f1.dat"]
    head_content_length := fun _ => some 1048576
    reach_capacity_limit := fun _ => true
    download_file := fun _ _ => .OK
    kbps := 100
    low_speed_time := 300 }

/-- Download environment in which every step succeeds. -/
def ok_dl_env : DownloadEnv :=
  { capacity_limited_dl_env with reach_capacity_limit := fun _ => false }

/-- Batch download environment; unused by peers on the single-file
strategy. -/
def unused_batch_env : BatchDownloadEnv :=
  { delete_dir_ok := true
    create_dir_ok := true
    list_files_v2 := some []
    reach_capacity_limit := fun _ => false
    download_batch := fun _ => .OK }

/-- Peer (single-file strategy) whose download step fails with the capacity
error. -/
def capacity_limited_peer : PeerEnv :=
  { make_snapshot_st := .OK
    allow_incremental_clone := false
    support_batch_download := false
    dl_env := capacity_limited_dl_env
    batch_env := unused_batch_env
    convert_rowset_ids_st := .OK }

/-- Peer on which every step succeeds. -/
def ok_peer : PeerEnv :=
  { capacity_limited_peer with dl_env := ok_dl_env }

/-- Filesystem environment where no probed file exists (the md5 fields are
never consulted in the scenarios using it). -/
def empty_fs : FsEnv :=
  { file_exists := fun _ => false
    md5sum := fun _ => none }

/-- Finish environment of a staged snapshot that carries one `*.binlog`
file but no `rowset_binlog_metas.pb` manifest; every other external step
succeeds, and the downloaded header holds the single rowset `[0-1]`. -/
def binlog_no_manifest_env : FinishEnv :=
  { fs := empty_fs
    tablet_dir := "/data/0/10001/1234"
    clone_dir := "/data/0/10001/1234/clone"
    clone_dir_exists := true
    load_header := some ⟨[((0 : Int), (1 : Int))], ((0 : Int), (1 : Int))⟩
    delete_hdr_ok := true
    binlog_meta_filesize := some 0
    read_pb_ok := true
    delete_metas_ok := true
    create_binlog_dir_ok := true
    list_clone_dir := some ["02000000000000004243.binlog"]
    list_tablet_dir := some []
    link_ok := fun _ => true
    ingest_binlog_metas_ok := true
    create_rowset_ok := true
    revise_ok := true }

/-- Finish environment where the staging directory does not exist. -/
def no_clone_dir_env : FinishEnv :=
  { binlog_no_manifest_env with clone_dir_exists := false }

/-- Finish environment that stages one plain data file (which gets linked)
and then fails the metadata merge at `revise_tablet_meta`. -/
def failing_merge_env : FinishEnv :=
  { binlog_no_manifest_env with
    list_clone_dir := some ["020000000000000042_0.dat"]
    revise_ok := false }

/-- Existing-tablet environment of scenario 1 (§8): local ranges
`[0-1],[2-5],[6-8]`, requested version 7, no merge-on-write, no peers
needed. -/
def covered_local_env : ExistingCloneEnv :=
  { local_rowsets := [((0 : Int), (1 : Int)), (2, 5), (6, 8)]
    req_version := 7
    migration_lock_ok := true
    enable_unique_key_merge_on_write := false
    min_pending_publish_version := 0
    enable_batch_download := false
    peers := []
    finish_env := no_clone_dir_env
    report_ok := true }

end DorisClone

namespace DorisClone

/-- `move_matching_last` permutes its input (it performs one swap or
nothing). -/
theorem move_matching_last_perm {α : Type} (p : α → Bool) (l : List α) :
    (move_matching_last p l).Perm l := by
  induction l with
  | nil => simp [move_matching_last]
  | cons x xs ih =>
    cases xs with
    | nil => simp [move_matching_last]
    | cons y ys =>
      cases hp : p x with
      | true =>
        simp only [move_matching_last, hp, if_true]
        have hsplit := List.dropLast_append_getLast (List.cons_ne_nil y ys)
        have h1 : ((y :: ys).dropLast ++ [x]).Perm (x :: (y :: ys).dropLast) :=
          List.perm_append_singleton x _
        have h2 := h1.cons ((y :: ys).getLast (List.cons_ne_nil y ys))
        have h3 : ((y :: ys).getLast (List.cons_ne_nil y ys) :: x :: (y :: ys).dropLast).Perm
            (x :: (y :: ys).getLast (List.cons_ne_nil y ys) :: (y :: ys).dropLast) :=
          List.Perm.swap x _ _
        have h4 : ((y :: ys).getLast (List.cons_ne_nil y ys) :: (y :: ys).dropLast).Perm
            (y :: ys) := by
          have h5 := List.perm_append_singleton
            ((y :: ys).getLast (List.cons_ne_nil y ys)) ((y :: ys).dropLast)
          rw [hsplit] at h5
          exact h5.symm
        exact (h2.trans h3).trans (h4.cons x)
      | false =>
        simp only [move_matching_last, hp, if_false]
        exact ih.cons x

/-- `move_matching_last` of a non-empty list is non-empty. -/
theorem move_matching_last_ne_nil {α : Type} (p : α → Bool) (l : List α)
    (h : l ≠ []) : move_matching_last p l ≠ [] := by
  intro hc
  have hlen := (move_matching_last_perm p l).length_eq
  rw [hc] at hlen
  simp only [List.length_nil] at hlen
  exact h (List.length_eq_zero.mp hlen.symm)

/-- If some element of the input satisfies the predicate, the last element
of the reordered list satisfies it. -/
theorem move_matching_last_getLast {α : Type} (p : α → Bool) (l : List α)
    (h : ∃ x ∈ l, p x = true) :
    ∃ z, (move_matching_last p l).getLast? = some z ∧ p z = true := by
  induction l with
  | nil => simp at h
  | cons x xs ih =>
    cases xs with
    | nil =>
      obtain ⟨w, hw, hpw⟩ := h
      simp only [List.mem_singleton] at hw
      subst hw
      exact ⟨w, by simp [move_matching_last], hpw⟩
    | cons y ys =>
      cases hp : p x with
      | true =>
        refine ⟨x, ?_, hp⟩
        simp only [move_matching_last, hp, if_true]
        rw [← List.cons_append]
        exact List.getLast?_concat _
      | false =>
        have hex : ∃ w ∈ y :: ys, p w = true := by
          obtain ⟨w, hw, hpw⟩ := h
          rcases List.mem_cons.mp hw with rfl | hw2
          · rw [hp] at hpw
            exact absurd hpw (by simp)
          · exact ⟨w, hw2, hpw⟩
        obtain ⟨z, hz, hpz⟩ := ih hex
        refine ⟨z, ?_, hpz⟩
        simp only [move_matching_last, hp, Bool.false_eq_true, if_false]
        have hne := move_matching_last_ne_nil p (y :: ys) (List.cons_ne_nil y ys)
        cases hm : move_matching_last p (y :: ys) with
        | nil => exact absurd hm hne
        | cons b t =>
          rw [hm] at hz
          rw [List.getLast?_cons_cons]
          exact hz

/-- C6: in both transfer strategies the `.hdr`-last reordering of the
listed remote files yields a permutation of the input list, and whenever
the input contains a name ending in `.hdr`, the last element of the
reordered list has a name ending in `.hdr` (so the `.hdr` file is
downloaded last). -/
theorem hdr_reordering_contract :
    (∀ l : List String, (move_hdr_last l).Perm l ∧
      ((∃ f ∈ l, ends_with f ".hdr" = true) →
        ∃ z, (move_hdr_last l).getLast? = some z ∧ ends_with z ".hdr" = true)) ∧
    (∀ l : List (String × Nat), (move_hdr_last_v2 l).Perm l ∧
      ((∃ f ∈ l, ends_with f.1 ".hdr" = true) →
        ∃ z, (move_hdr_last_v2 l).getLast? = some z ∧ ends_with z.1 ".hdr" = true)) := by
  constructor
  · exact fun l => ⟨move_matching_last_perm _ l, fun h => move_matching_last_getLast _ l h⟩
  · exact fun l => ⟨move_matching_last_perm _ l, fun h => move_matching_last_getLast _ l h⟩

/-- Witness for `hdr_reordering_contract` at a concrete listing holding a
`.hdr` name. -/
theorem hdr_reordering_contract_witness :
    (move_hdr_last ["a.dat", "t.hdr", "b.idx"]).Perm ["a.dat", "t.hdr", "b.idx"] ∧
    (∃ z, (move_hdr_last ["a.dat", "t.hdr", "b.idx"]).getLast? = some z ∧
      ends_with z ".hdr" = true) :=
  ⟨(hdr_reordering_contract.1 ["a.dat", "t.hdr", "b.idx"]).1,
   (hdr_reordering_contract.1 ["a.dat", "t.hdr", "b.idx"]).2
     ⟨"t.hdr", by decide, by decide⟩⟩

/-- C8: for every file of the per-file strategy the GET timeout in seconds
is `max(download_low_speed_time, file_size / download_low_speed_limit_kbps
/ 1024)` in integer (truncating) arithmetic; the hypothesis `0 < kbps`
restricts to the domain on which the C++ unsigned division is defined. -/
theorem download_timeout_is_max (file_size kbps low_speed_time : Nat)
    (_hk : 0 < kbps) :
    estimate_timeout file_size kbps low_speed_time =
      max low_speed_time (file_size / kbps / 1024) ∧
    download_timeout_ms file_size kbps low_speed_time =
      max low_speed_time (file_size / kbps / 1024) * 1000 := by
  have he : estimate_timeout file_size kbps low_speed_time =
      max low_speed_time (file_size / kbps / 1024) := by
    unfold estimate_timeout
    by_cases h : file_size / kbps / 1024 < low_speed_time
    · simp only [h, if_true]
      exact (Nat.max_eq_left (Nat.le_of_lt h)).symm
    · simp only [h, if_false]
      exact (Nat.max_eq_right (Nat.le_of_not_lt h)).symm
  refine ⟨he, ?_⟩
  unfold download_timeout_ms
  rw [he]

/-- Witness for `download_timeout_is_max`: a 1 GiB file at 100 kbps with a
300 s floor. -/
theorem download_timeout_is_max_witness :
    estimate_timeout 1073741824 100 300 = max 300 (1073741824 / 100 / 1024) ∧
    download_timeout_ms 1073741824 100 300 = max 300 (1073741824 / 100 / 1024) * 1000 :=
  download_timeout_is_max 1073741824 100 300 (by decide)

/-- C10: the guarded rendering of the timeout computation takes its error
branch exactly when `download_low_speed_limit_kbps` is zero; whenever the
config value is positive it computes precisely the unguarded timeout, so
the division is total exactly under the precondition `kbps > 0`. -/
theorem guarded_timeout_division_total (file_size kbps low_speed_time : Nat) :
    estimate_timeout_checked file_size kbps low_speed_time =
      (if 0 < kbps then some (estimate_timeout file_size kbps low_speed_time) else none) := by
  unfold estimate_timeout_checked checked_div estimate_timeout
  by_cases h : kbps = 0
  · simp [h]
  · simp [h, Nat.pos_of_ne_zero h]

end DorisClone

namespace DorisClone

/-- The batch and the remaining suffix of `batch_take` recombine to the
input list: packing neither drops nor duplicates files. -/
theorem batch_take_append (l : List (String × Nat)) (c s : Nat) :
    (batch_take l c s).1 ++ (batch_take l c s).2 = l := by
  induction l generalizing c s with
  | nil => simp [batch_take]
  | cons f rest ih =>
    by_cases h : BATCH_FILE_NUM ≤ c ∨ BATCH_FILE_SIZE ≤ s ∨ (rest = [] ∧ c ≠ 0)
    · simp [batch_take, h]
    · simp [batch_take, h, ih]

/-- On a non-empty list with an empty starting batch, `batch_take` always
takes the head file (no stop condition can hold at count 0, size 0). -/
theorem batch_take_cons_zero (f : String × Nat) (rest : List (String × Nat)) :
    batch_take (f :: rest) 0 0 =
      (f :: (batch_take rest 1 f.2).1, (batch_take rest 1 f.2).2) := by
  simp [batch_take, BATCH_FILE_NUM, BATCH_FILE_SIZE]

/-- The remaining suffix after forming the first batch of a non-empty list
is strictly shorter than the input (the loop variant of the outer packing
loop). -/
theorem batch_take_snd_length_lt (f : String × Nat) (rest : List (String × Nat)) :
    (batch_take (f :: rest) 0 0).2.length < (f :: rest).length := by
  have happ := congrArg List.length (batch_take_append (f :: rest) 0 0)
  rw [List.length_append] at happ
  have hpos : 0 < (batch_take (f :: rest) 0 0).1.length := by
    rw [batch_take_cons_zero]
    simp
  omega

/-- `make_batches_go` agrees for any two sufficient fuels. -/
theorem make_batches_go_fuel_eq (fuel1 : Nat) :
    ∀ (fuel2 : Nat) (l : List (String × Nat)), l.length ≤ fuel1 → l.length ≤ fuel2 →
      make_batches_go fuel1 l = make_batches_go fuel2 l := by
  induction fuel1 with
  | zero =>
    intro fuel2 l h1 _
    have hl : l = [] := List.length_eq_zero.mp (Nat.le_zero.mp h1)
    subst hl
    cases fuel2 <;> rfl
  | succ fuel1 ih =>
    intro fuel2 l h1 h2
    cases l with
    | nil => cases fuel2 <;> rfl
    | cons f rest =>
      cases fuel2 with
      | zero => simp at h2
      | succ fuel2 =>
        have hlt := batch_take_snd_length_lt f rest
        show (batch_take (f :: rest) 0 0).1 ::
            make_batches_go fuel1 (batch_take (f :: rest) 0 0).2 =
          (batch_take (f :: rest) 0 0).1 ::
            make_batches_go fuel2 (batch_take (f :: rest) 0 0).2
        rw [ih fuel2 _ (by omega) (by omega)]

/-- Any fuel at least the list length computes the same batches, so the
zero-fuel branch of `make_batches_go` is never taken from `make_batches`. -/
theorem make_batches_fuel_irrel (fuel : Nat) (l : List (String × Nat))
    (h : l.length ≤ fuel) : make_batches_go fuel l = make_batches l :=
  make_batches_go_fuel_eq fuel l.length l h le_rfl

/-- Flattening the batches recovers the input list: the packing is a
partition of the (reordered) file list into consecutive batches. -/
theorem make_batches_flatten (l : List (String × Nat)) :
    (make_batches l).flatten = l := by
  suffices hgo : ∀ (fuel : Nat) (l : List (String × Nat)), l.length ≤ fuel →
      (make_batches_go fuel l).flatten = l by
    exact hgo l.length l le_rfl
  intro fuel
  induction fuel with
  | zero =>
    intro l h
    have hl : l = [] := List.length_eq_zero.mp (Nat.le_zero.mp h)
    subst hl
    rfl
  | succ fuel ih =>
    intro l h
    cases l with
    | nil => rfl
    | cons f rest =>
      have hlt := batch_take_snd_length_lt f rest
      have h1 : make_batches_go (fuel + 1) (f :: rest) =
          (batch_take (f :: rest) 0 0).1 ::
            make_batches_go fuel (batch_take (f :: rest) 0 0).2 := rfl
      rw [h1, List.flatten_cons, ih _ (by omega), batch_take_append]

/-- C5 counterexample: for seven 10 MiB files the packing does NOT produce
a single batch of 7 files — the final-file rule fires even though the file
is not special, yielding batches of 6 and 1 files. -/
theorem batch_packing_seven_counterexample :
    (make_batches seven_ten_mib).map List.length = [6, 1] ∧
    make_batches seven_ten_mib ≠ [seven_ten_mib] := by
  constructor
  · decide
  · decide

/-- C5 amended: the greedy packing forms consecutive batches (their
concatenation is the input), closing a batch once it holds 64 files or at
least 64 MiB accumulated before the next file, and the final file of the
list — whether or not it is the `.hdr` — is placed in its own batch
whenever it would otherwise join a non-empty batch.  Hence for
`[10 MiB × 7]` the batches hold 6 and 1 files (not a single batch of 7),
and for `[10 MiB × 7, 1 MiB .hdr]` they hold 7 and 1 files with the `.hdr`
alone in the final batch. -/
theorem batch_packing_amended :
    (∀ l : List (String × Nat), (make_batches l).flatten = l) ∧
    (make_batches seven_ten_mib).map List.length = [6, 1] ∧
    (make_batches seven_ten_mib_hdr).map List.length = [7, 1] ∧
    (make_batches seven_ten_mib_hdr).getLast? = some [("t.hdr", 1048576)] :=
  ⟨make_batches_flatten, by decide, by decide, by decide⟩

end DorisClone

namespace DorisClone

/-- A local range straddling the cloned max version makes the partition
fail with the version-cross error. -/
theorem full_clone_partition_cross (M : Int) (l : List Version)
    (h : ∃ v ∈ l, v.1 ≤ M ∧ M < v.2) :
    full_clone_partition M l = .error (.Err .INTERNAL_ERROR "version cross src latest") := by
  induction l with
  | nil => simp at h
  | cons v rest ih =>
    by_cases hv : v.1 ≤ M ∧ v.2 > M
    · simp [full_clone_partition, hv]
    · have hex : ∃ w ∈ rest, w.1 ≤ M ∧ M < w.2 := by
        obtain ⟨w, hw, hw1, hw2⟩ := h
        rcases List.mem_cons.mp hw with rfl | hw3
        · exact absurd ⟨hw1, hw2⟩ hv
        · exact ⟨w, hw3, hw1, hw2⟩
      by_cases hdel : v.2 ≤ M
      · simp [full_clone_partition, hv, hdel, ih hex]
      · simp [full_clone_partition, hv, hdel, ih hex]

/-- With no straddling range, the partition splits the (valid) local
ranges into those ending at or below the cloned max version (deleted) and
those starting above it (kept). -/
theorem full_clone_partition_no_cross (M : Int) (l : List Version)
    (hvalid : ∀ v ∈ l, v.1 ≤ v.2)
    (h : ∀ v ∈ l, ¬(v.1 ≤ M ∧ M < v.2)) :
    full_clone_partition M l =
      .ok (l.filter (fun v => decide (v.2 ≤ M)), l.filter (fun v => decide (M < v.1))) := by
  induction l with
  | nil => simp [full_clone_partition]
  | cons v rest ih =>
    have hvr : ∀ w ∈ rest, w.1 ≤ w.2 := fun w hw => hvalid w (List.mem_cons_of_mem _ hw)
    have hr : ∀ w ∈ rest, ¬(w.1 ≤ M ∧ M < w.2) := fun w hw => h w (List.mem_cons_of_mem _ hw)
    have hv := h v (List.mem_cons_self v rest)
    have hvv := hvalid v (List.mem_cons_self v rest)
    by_cases hdel : v.2 ≤ M
    · have hnk : ¬ (M < v.1) := by omega
      have hnc : ¬ (v.1 ≤ M ∧ v.2 > M) := by omega
      simp [full_clone_partition, hnc, hdel, ih hvr hr, List.filter_cons, hnk]
    · have hk : M < v.1 := by omega
      have hnc : ¬ (v.1 ≤ M ∧ v.2 > M) := by omega
      simp [full_clone_partition, hnc, hdel, ih hvr hr, List.filter_cons, hk]

/-- C3: in the full merge against `M = cloned_max_version.end`, a local
range `[a,b]` with `a ≤ M < b` makes the merge return the
`INTERNAL_ERROR "version cross src latest"` with the local meta unchanged;
otherwise every range with `b ≤ M` is marked for deletion and every range
with `a > M` is kept.  In the concrete case of local ranges
`[0-1],[2-10],[12-14]` and `M = 13`, the result is the version-cross error
(raised by `[12-14]`, which straddles 13) with the local meta untouched. -/
theorem full_clone_version_trichotomy :
    (∀ (local_rs : List Version) (cloned : ClonedMeta) (cr rv : Bool),
      (∀ v ∈ local_rs, v.1 ≤ v.2) →
      (((∃ v ∈ local_rs, v.1 ≤ cloned.max_version.2 ∧ cloned.max_version.2 < v.2) →
          finish_full_clone local_rs cloned cr rv =
            (.Err .INTERNAL_ERROR "version cross src latest", local_rs)) ∧
       ((∀ v ∈ local_rs, ¬(v.1 ≤ cloned.max_version.2 ∧ cloned.max_version.2 < v.2)) →
          full_clone_partition cloned.max_version.2 local_rs =
            .ok (local_rs.filter (fun v => decide (v.2 ≤ cloned.max_version.2)),
                 local_rs.filter (fun v => decide (cloned.max_version.2 < v.1)))))) ∧
    finish_full_clone [((0 : Int), (1 : Int)), (2, 10), (12, 14)]
        ⟨[(0, 1), (2, 13)], (2, 13)⟩ true true =
      (.Err .INTERNAL_ERROR "version cross src latest",
       [((0 : Int), (1 : Int)), (2, 10), (12, 14)]) := by
  constructor
  · intro local_rs cloned cr rv hvalid
    constructor
    · intro h
      unfold finish_full_clone
      rw [full_clone_partition_cross _ _ h]
    · intro h
      exact full_clone_partition_no_cross _ _ hvalid h
  · decide

/-- Witness for `full_clone_version_trichotomy` at the concrete scenario of
§8 (local `[0-1],[2-10],[12-14]`, cloned max version end 13). -/
theorem full_clone_version_trichotomy_witness :
    finish_full_clone [((0 : Int), (1 : Int)), (2, 10), (12, 14)]
        ⟨[(0, 1), (2, 13)], (2, 13)⟩ true true =
      (.Err .INTERNAL_ERROR "version cross src latest",
       [((0 : Int), (1 : Int)), (2, 10), (12, 14)]) :=
  (full_clone_version_trichotomy.1 [((0 : Int), (1 : Int)), (2, 10), (12, 14)]
      ⟨[(0, 1), (2, 13)], (2, 13)⟩ true true (by decide)).1 (by decide)

end DorisClone

namespace DorisClone

/-- C1 counterexample: with two candidate peers, where the first peer's
download step fails with the capacity error `EXCEEDED_LIMIT` from
`reach_capacity_limit`, the peer loop falls through to the second peer
(two snapshot RPCs, two download attempts) and the task result is OK — the
capacity error is absorbed at the peer-loop boundary like any other
download failure, not propagated as the task's result. -/
theorem capacity_error_not_propagated :
    download_files capacity_limited_peer.dl_env =
      .Err .EXCEEDED_LIMIT "reach the capacity limit of path" ∧
    make_and_download_snapshots false [capacity_limited_peer, ok_peer] =
      ⟨.OK, 2, 2, true, false⟩ := by
  constructor
  · rfl
  · rfl

/-- C1 amended: a capacity error (`EXCEEDED_LIMIT`) from the download step
is absorbed at the peer-loop boundary exactly like any other download
failure: the attempt is abandoned and the loop continues with the remaining
peers, carrying the capacity error as the last-observed status; it becomes
the task's result precisely when the loop then terminates without a
successful attempt overriding it — in particular when the failing peer was
the last candidate. -/
theorem capacity_error_absorbed (eb : Bool) (p : PeerEnv) (rest : List PeerEnv)
    (m : String) (hmk : p.make_snapshot_st = .OK)
    (hdl : (if eb ∧ p.support_batch_download then batch_download_files p.batch_env
            else download_files p.dl_env) = .Err .EXCEEDED_LIMIT m) :
    make_and_download_snapshots eb (p :: rest) =
      make_and_download_snapshots_loop eb (.Err .EXCEEDED_LIMIT m) 1 1
        p.allow_incremental_clone rest ∧
    (make_and_download_snapshots eb [p]).status = .Err .EXCEEDED_LIMIT m := by
  have key : ∀ r : List PeerEnv, make_and_download_snapshots eb (p :: r) =
      make_and_download_snapshots_loop eb (.Err .EXCEEDED_LIMIT m) 1 1
        p.allow_incremental_clone r := by
    intro r
    unfold make_and_download_snapshots
    rw [make_and_download_snapshots_loop]
    simp [hmk, Status.isOk, hdl]
  refine ⟨key rest, ?_⟩
  rw [key []]
  rfl

/-- Witness for `capacity_error_absorbed`: the capacity-limited peer as the
only candidate makes the task fail with the capacity error. -/
theorem capacity_error_absorbed_witness :
    make_and_download_snapshots false [capacity_limited_peer] =
      make_and_download_snapshots_loop false
        (.Err .EXCEEDED_LIMIT "reach the capacity limit of path") 1 1
        capacity_limited_peer.allow_incremental_clone [] ∧
    (make_and_download_snapshots false [capacity_limited_peer]).status =
      .Err .EXCEEDED_LIMIT "reach the capacity limit of path" :=
  capacity_error_absorbed false capacity_limited_peer []
    "reach the capacity limit of path" rfl rfl

/-- C2 counterexample: a staged `*.binlog` file while the manifest
indicated no binlog data does not fail the finish step: the link loop is
left early (the binlog file is never linked) and, with all remaining steps
succeeding, the clone completes with status OK instead of an
InconsistentSnapshot-kind internal error. -/
theorem binlog_without_manifest_succeeds :
    (finish_clone binlog_no_manifest_env [] false 1).status = .OK ∧
    (finish_clone binlog_no_manifest_env [] false 1).linked_files_remaining = [] := by
  constructor
  · rfl
  · rfl

/-- C2 amended: when the staged manifest indicated no binlog data
(`contain_binlog = false`), encountering a `*.binlog` / `*.binlog-index`
staged name only aborts the link loop (`break` after a warning): provided
the plain links themselves succeed, the loop always ends in its normal
`proceed` outcome — no error is raised on account of the binlog files —
and the finish step then continues, completing successfully when the
remaining steps succeed, as in the concrete no-manifest environment. -/
theorem binlog_without_manifest_breaks_loop :
    (∀ (fs : FsEnv) (td cd : String) (lf : List String) (lk : String → Bool)
       (files linked : List String), (∀ f, lk f = true) →
       ∃ l2, link_clone_files fs td cd false lf lk files linked = .proceed l2) ∧
    (finish_clone binlog_no_manifest_env [] false 1).status = .OK := by
  constructor
  · intro fs td cd lf lk files
    induction files with
    | nil => exact fun linked _ => ⟨linked, rfl⟩
    | cons f rest ih =>
      intro linked hlk
      by_cases hmem : f ∈ lf
      · simpa [link_clone_files, hmem] using ih linked hlk
      · by_cases hb : (ends_with f ".binlog" || ends_with f ".binlog-index") = true
        · exact ⟨linked, by simp [link_clone_files, hmem, hb]⟩
        · simpa [link_clone_files, hmem, hb, hlk f] using ih (linked ++ [td ++ "/" ++ f]) hlk
  · rfl

/-- Witness for `binlog_without_manifest_breaks_loop` at the concrete
no-manifest staging. -/
theorem binlog_without_manifest_breaks_loop_witness :
    (∃ l2, link_clone_files empty_fs "/data/0/10001/1234" "/data/0/10001/1234/clone"
      false [] (fun _ => true) ["02000000000000004243.binlog"] [] = .proceed l2) ∧
    (finish_clone binlog_no_manifest_env [] false 1).status = .OK :=
  ⟨binlog_without_manifest_breaks_loop.1 empty_fs "/data/0/10001/1234"
      "/data/0/10001/1234/clone" [] (fun _ => true) ["02000000000000004243.binlog"] []
      (fun _ => rfl),
   binlog_without_manifest_breaks_loop.2⟩

end DorisClone

namespace DorisClone

/-- C7: on every exit path of the finish step the staging (clone)
directory is removed (the unconditional `remove_clone_dir` guard); whenever
any step after linking fails — metadata merge included — every file linked
during this finish step is removed again, while on success the recorded
links are exactly what survives.  Either the staged files are linked into
place with the staging directory gone, or all links of the attempt and the
staging directory are gone. -/
theorem finish_clone_cleanup (env : FinishEnv) (local_rs : List Version)
    (inc : Bool) (version : Int) :
    (finish_clone env local_rs inc version).clone_dir_removed = true ∧
    ((finish_clone env local_rs inc version).status.isOk = false →
      (finish_clone env local_rs inc version).linked_files_remaining = []) ∧
    ((finish_clone env local_rs inc version).status.isOk = true →
      (finish_clone env local_rs inc version).linked_files_remaining =
        (finish_clone_body env local_rs inc version).linked_success_files) := by
  refine ⟨rfl, fun h => ?_, fun h => ?_⟩
  · simp only [finish_clone] at h ⊢
    simp [h]
  · simp only [finish_clone] at h ⊢
    simp [h]

/-- Witness for `finish_clone_cleanup`: a finish attempt that links one
staged data file and then fails the metadata merge ends with the link
removed (and the staging directory gone). -/
theorem finish_clone_cleanup_witness :
    (finish_clone failing_merge_env [] false 1).clone_dir_removed = true ∧
    (finish_clone failing_merge_env [] false 1).linked_files_remaining = [] :=
  ⟨(finish_clone_cleanup failing_merge_env [] false 1).1,
   (finish_clone_cleanup failing_merge_env [] false 1).2.1 rfl⟩

/-- C9: with an empty candidate peer list, `_make_and_download_snapshots`
returns its default-initialized OK status having made no snapshot RPC and
attempted no download — so the staging directory is never created, since
creating it is part of the download step; the absent staged data is caught
only later, by the finish step's "clone dir not existed" check, which also
leaves the local meta alone and links nothing. -/
theorem empty_peer_list_ok :
    (∀ eb : Bool, make_and_download_snapshots eb [] = ⟨.OK, 0, 0, false, false⟩) ∧
    (finish_clone no_clone_dir_env [] false 1).status =
      .Err .INTERNAL_ERROR "clone dir not existed" ∧
    (finish_clone no_clone_dir_env [] false 1).linked_files_remaining = [] :=
  ⟨fun _ => rfl, rfl, rfl⟩

/-- C4: when `get_missed_versions(specified_version)` comes back empty on
the existing-tablet path, the clone performs no snapshot RPC and no file
transfer and goes directly to reporting the tablet info; in the concrete
scenario — local ranges `[0-1],[2-5],[6-8]`, requested version 7 — the
task returns OK with reported tablet version 8. -/
theorem empty_missed_versions_skip_clone :
    (∀ env : ExistingCloneEnv, env.migration_lock_ok = true →
      get_missed_versions env.local_rowsets (specified_version env) = [] →
      do_clone_existing env =
        ⟨(set_tablet_info env.local_rowsets env.req_version false env.report_ok).status,
         0, 0,
         (set_tablet_info env.local_rowsets env.req_version false env.report_ok).tablet_infos⟩) ∧
    do_clone_existing covered_local_env = ⟨.OK, 0, 0, [8]⟩ := by
  constructor
  · intro env hlock hmissed
    unfold do_clone_existing
    simp [hlock, hmissed]
  · rfl

/-- Witness for `empty_missed_versions_skip_clone` at the concrete covered
local tablet. -/
theorem empty_missed_versions_skip_clone_witness :
    do_clone_existing covered_local_env =
      ⟨(set_tablet_info covered_local_env.local_rowsets covered_local_env.req_version
          false covered_local_env.report_ok).status, 0, 0,
       (set_tablet_info covered_local_env.local_rowsets covered_local_env.req_version
          false covered_local_env.report_ok).tablet_infos⟩ :=
  empty_missed_versions_skip_clone.1 covered_local_env rfl (by decide)

end DorisClone
